import Mathlib

/-!
Shallow embedding of the input-validation and sanitization core of the
securityWeb repository (`src/utils/validation.ts`, `src/utils/sanitization.ts`).

JavaScript strings are modelled as `List Char` (one entry per Unicode code
point, the granularity at which `for...of` iterates); `string | null`
parameters are modelled as `Option (List Char)`.  Host-runtime Unicode NFC
normalization (`String.prototype.normalize('NFC')`) is not part of the
repository's code, so functions that call it are parametrized by the host
normalization function `nfc : List Char → List Char`.
-/

namespace SecurityWeb

/-- The set matched by the JavaScript regex class `\s` and removed by
`String.prototype.trim` (ECMAScript WhiteSpace and LineTerminator code
points, including the Unicode Zs category). -/
def isJSSpace (c : Char) : Bool :=
  let v := c.val.toNat
  v == 0x9 || v == 0xA || v == 0xB || v == 0xC || v == 0xD || v == 0x20 ||
  v == 0xA0 || v == 0x1680 || (0x2000 ≤ v && v ≤ 0x200A) ||
  v == 0x2028 || v == 0x2029 || v == 0x202F || v == 0x205F || v == 0x3000 ||
  v == 0xFEFF

/-- `String.prototype.trim`: drop leading and trailing JS whitespace. -/
def trimStr (s : List Char) : List Char :=
  ((s.dropWhile isJSSpace).reverse.dropWhile isJSSpace).reverse

/-- ASCII letter, the regex class `[a-zA-Z]`. -/
def isAsciiLetterB (c : Char) : Bool :=
  let v := c.val.toNat
  (0x41 ≤ v && v ≤ 0x5A) || (0x61 ≤ v && v ≤ 0x7A)

/-- ASCII decimal digit, the regex class `[0-9]` / `\d`. -/
def isDigitB (c : Char) : Bool :=
  let v := c.val.toNat
  0x30 ≤ v && v ≤ 0x39

/-- ASCII uppercase letter, the regex class `[A-Z]`. -/
def isUpperB (c : Char) : Bool :=
  let v := c.val.toNat
  0x41 ≤ v && v ≤ 0x5A

/-- ASCII lowercase letter, the regex class `[a-z]`. -/
def isLowerB (c : Char) : Bool :=
  let v := c.val.toNat
  0x61 ≤ v && v ≤ 0x7A

/-- The null code point U+0000. -/
def nullChar : Char := Char.ofNat 0

/-- The result record returned by every validator:
`{ isValid: boolean, error?: string }`. -/
structure ValidationResult where
  isValid : Bool
  error : Option String
  deriving Repr, DecidableEq

/-- `getUnicodeCategory` from `validation.ts`: ordered range tests mapping a
character to a one-letter category string, first match wins, `"S"` as
catch-all. -/
def getUnicodeCategory (c : Char) : String :=
  let v := c.val.toNat
  if (0x41 ≤ v && v ≤ 0x5A) || (0x61 ≤ v && v ≤ 0x7A) then "L"
  else if (0xC0 ≤ v && v ≤ 0xFF) || (0x100 ≤ v && v ≤ 0x17F) ||
          (0x180 ≤ v && v ≤ 0x24F) then "L"
  else if 0x370 ≤ v && v ≤ 0x3FF then "L"
  else if 0x400 ≤ v && v ≤ 0x4FF then "L"
  else if 0x590 ≤ v && v ≤ 0x5FF then "L"
  else if 0x600 ≤ v && v ≤ 0x6FF then "L"
  else if 0x900 ≤ v && v ≤ 0x97F then "L"
  else if (0x4E00 ≤ v && v ≤ 0x9FFF) || (0x3040 ≤ v && v ≤ 0x309F) ||
          (0x30A0 ≤ v && v ≤ 0x30FF) then "L"
  else if 0x30 ≤ v && v ≤ 0x39 then "N"
  else if isJSSpace c then "Z"
  else if (0x21 ≤ v && v ≤ 0x2F) || (0x3A ≤ v && v ≤ 0x40) ||
          (0x5B ≤ v && v ≤ 0x60) || (0x7B ≤ v && v ≤ 0x7E) then "P"
  else if v ≤ 0x1F || (0x7F ≤ v && v ≤ 0x9F) then "C"
  else if (0x300 ≤ v && v ≤ 0x36F) || (0x1AB0 ≤ v && v ≤ 0x1AFF) then "M"
  else "S"

/-- `normalizeText` from `validation.ts`: empty input maps to the empty
string, otherwise the host NFC normalization (passed in as `nfc`) applies. -/
def normalizeText (nfc : List Char → List Char) (text : List Char) : List Char :=
  if text = [] then [] else nfc text

/-- `detectInvalidCharacter` from `validation.ts`: scan left to right; a
character in the disallow set is returned at once; otherwise a character in
the individual allow set is skipped; otherwise a character whose category is
not allowed is returned; `none` when the whole text passes. -/
def detectInvalidCharacter (text : List Char) (allowedCategories : List String)
    (allowedIndividualChars : List Char) (disallowedChars : List Char) :
    Option Char :=
  match text with
  | [] => none
  | c :: rest =>
    if c ∈ disallowedChars then some c
    else if c ∈ allowedIndividualChars then
      detectInvalidCharacter rest allowedCategories allowedIndividualChars disallowedChars
    else if getUnicodeCategory c ∈ allowedCategories then
      detectInvalidCharacter rest allowedCategories allowedIndividualChars disallowedChars
    else some c

/-- A character rejected inside an email by the regex `[`'"\u0000]`
(backtick, single quote, double quote, null byte). -/
def isDangerousEmailChar (c : Char) : Bool :=
  let v := c.val.toNat
  v == 0x60 || v == 0x27 || v == 0x22 || v == 0

/-- A character of the regex class `[a-zA-Z0-9.-]` used for email domains. -/
def isDomainChar (c : Char) : Bool :=
  isAsciiLetterB c || isDigitB c || c == '-' || c == '.'

/-- The test of the anchored regex `/^[a-zA-Z0-9.-]+\.[a-zA-Z]{2,}$/`:
equivalently, the part after the last dot is two or more ASCII letters and
the (non-empty) part before the last dot consists of class characters. -/
def domainRegexTest (d : List Char) : Bool :=
  let r := d.reverse
  let rtld := r.takeWhile (fun c => c != '.')
  match r.dropWhile (fun c => c != '.') with
  | [] => false
  | _ :: rpre =>
    !rpre.isEmpty && rpre.all isDomainChar &&
    2 ≤ rtld.length && rtld.all isAsciiLetterB

/-- `validateEmail` from `validation.ts`. -/
def validateEmail (email : List Char) : ValidationResult :=
  if email = [] ∨ (trimStr email).length = 0 then
    ⟨false, some "Email is required"⟩
  else
    let t := trimStr email
    if 254 < t.length then ⟨false, some "Email is too long"⟩
    else if t.count '@' ≠ 1 then
      ⟨false, some "Email must contain exactly one @ symbol"⟩
    else
      let localPart := t.takeWhile (fun c => c != '@')
      let domain := (t.dropWhile (fun c => c != '@')).tail
      if localPart = [] ∨ domain = [] then
        ⟨false, some "Please enter a valid email address"⟩
      else if 63 < localPart.length then
        ⟨false, some "Email local part is too long (max 63 characters)"⟩
      else if localPart.length = 0 then
        ⟨false, some "Email local part cannot be empty"⟩
      else if t.any isDangerousEmailChar then
        ⟨false, some "Email contains invalid characters"⟩
      else if ¬ domainRegexTest domain then
        ⟨false, some "Please enter a valid domain"⟩
      else ⟨true, none⟩

/-- A character of the fixed special-character class required by
`validatePassword`: `[!@#$%^&*()_+\-=\[\]{};':"\\|,.<>\/?]`. -/
def isPasswordSpecial (c : Char) : Bool :=
  let v := c.val.toNat
  v == 0x21 || v == 0x40 || v == 0x23 || v == 0x24 || v == 0x25 || v == 0x5E ||
  v == 0x26 || v == 0x2A || v == 0x28 || v == 0x29 || v == 0x5F || v == 0x2B ||
  v == 0x2D || v == 0x3D || v == 0x5B || v == 0x5D || v == 0x7B || v == 0x7D ||
  v == 0x3B || v == 0x27 || v == 0x3A || v == 0x22 || v == 0x5C || v == 0x7C ||
  v == 0x2C || v == 0x2E || v == 0x3C || v == 0x3E || v == 0x2F || v == 0x3F

/-- `validatePassword` from `validation.ts`: note it never trims — every
check runs on the raw value. -/
def validatePassword (password : List Char) : ValidationResult :=
  if password = [] then ⟨false, some "Password is required"⟩
  else if password.length < 8 then
    ⟨false, some "Password must be at least 8 characters long"⟩
  else if 128 < password.length then ⟨false, some "Password is too long"⟩
  else if ¬ (password.any isUpperB ∧ password.any isLowerB ∧
             password.any isDigitB ∧ password.any isPasswordSpecial) then
    ⟨false, some "Password must contain uppercase, lowercase, number, and special character"⟩
  else ⟨true, none⟩

/-- A character of the full-name regex class
`[a-zA-Zñáéíóúüàèìòùâêîôûäëïöüçñ\s\-']` (ASCII letters, a fixed lowercase
accented-Latin list, JS whitespace, hyphen, apostrophe). -/
def isFullNameChar (c : Char) : Bool :=
  let v := c.val.toNat
  isAsciiLetterB c || isJSSpace c || v == 0x2D || v == 0x27 ||
  v == 0xF1 || v == 0xE1 || v == 0xE9 || v == 0xED || v == 0xF3 || v == 0xFA ||
  v == 0xFC || v == 0xE0 || v == 0xE8 || v == 0xEC || v == 0xF2 || v == 0xF9 ||
  v == 0xE2 || v == 0xEA || v == 0xEE || v == 0xF4 || v == 0xFB || v == 0xE4 ||
  v == 0xEB || v == 0xEF || v == 0xF6 || v == 0xE7

/-- `validateFullName` from `validation.ts`. -/
def validateFullName (name : List Char) : ValidationResult :=
  if name = [] ∨ (trimStr name).length = 0 then
    ⟨false, some "Full name is required"⟩
  else
    let t := trimStr name
    if t.length < 2 then ⟨false, some "Full name must be at least 2 characters"⟩
    else if 100 < t.length then ⟨false, some "Full name is too long"⟩
    else if ¬ (t ≠ [] ∧ t.all isFullNameChar) then
      ⟨false, some "Full name contains invalid characters"⟩
    else ⟨true, none⟩

/-- The test of the anchored regex `/^[+]?[0-9]{7,15}$/`. -/
def phoneRegexTest (s : List Char) : Bool :=
  let ds := match s with
            | '+' :: rest => rest
            | rest => rest
  7 ≤ ds.length && ds.length ≤ 15 && ds.all isDigitB

/-- `validatePhone` from `validation.ts`: empty input is valid; otherwise the
trimmed value, with whitespace/hyphens/parentheses stripped, must match
`[+]?[0-9]{7,15}`. -/
def validatePhone (phone : List Char) : ValidationResult :=
  if phone = [] ∨ (trimStr phone).length = 0 then ⟨true, none⟩
  else
    let t := trimStr phone
    let stripped := t.filter (fun c => !(isJSSpace c || c == '-' || c == '(' || c == ')'))
    if ¬ phoneRegexTest stripped then
      ⟨false, some "Please enter a valid phone number"⟩
    else ⟨true, none⟩

/-- `validateAMKA` from `validation.ts`: the trimmed value must match
`/^\d{11}$/`. -/
def validateAMKA (amka : List Char) : ValidationResult :=
  if amka = [] ∨ (trimStr amka).length = 0 then
    ⟨false, some "AMKA is required"⟩
  else
    let t := trimStr amka
    if ¬ (t.length = 11 ∧ t.all isDigitB) then
      ⟨false, some "AMKA must be 11 digits"⟩
    else ⟨true, none⟩

/-- A character of the license-ID regex class `[a-zA-Z0-9\-\/]`. -/
def isLicenseChar (c : Char) : Bool :=
  isAsciiLetterB c || isDigitB c || c == '-' || c == '/'

/-- `validateLicenseID` from `validation.ts`. -/
def validateLicenseID (licenseID : List Char) : ValidationResult :=
  if licenseID = [] ∨ (trimStr licenseID).length = 0 then
    ⟨false, some "License ID is required"⟩
  else
    let t := trimStr licenseID
    if t.length < 3 then ⟨false, some "License ID is too short"⟩
    else if 50 < t.length then ⟨false, some "License ID is too long"⟩
    else if ¬ (t ≠ [] ∧ t.all isLicenseChar) then
      ⟨false, some "License ID contains invalid characters"⟩
    else ⟨true, none⟩

/-- The default individual-character allow set of `validateFreeFormText`. -/
def freeFormAllowedIndividual : List Char :=
  ['\x27', '-', '.', ',', '!', '?', ';', ':', '(', ')', '"', '/', '&',
   '—', '–', '…', '\n']

/-- `validateFreeFormText` from `validation.ts`, parametrized by the host
NFC normalization `nfc`. -/
def validateFreeFormText (nfc : List Char → List Char) (text : List Char)
    (minLength : Nat) (maxLength : Nat) (required : Bool)
    (fieldName : String) : ValidationResult :=
  let allowedCategories := ["L", "N", "Z", "M"]
  let disallowedChars := [nullChar]
  if required ∧ (text = [] ∨ (trimStr text).length = 0) then
    ⟨false, some (fieldName ++ " is required")⟩
  else if text = [] ∨ (trimStr text).length = 0 then ⟨true, none⟩
  else
    let normalizedText := normalizeText nfc text
    if 0 < minLength ∧ (trimStr normalizedText).length < minLength then
      ⟨false, some (fieldName ++ " must be at least " ++ toString minLength ++ " characters")⟩
    else if 0 < maxLength ∧ maxLength < normalizedText.length then
      ⟨false, some (fieldName ++ " must not exceed " ++ toString maxLength ++ " characters")⟩
    else
      match detectInvalidCharacter normalizedText allowedCategories
              freeFormAllowedIndividual disallowedChars with
      | some c =>
        ⟨false, some (fieldName ++ " contains invalid character " ++ String.mk ['\x27', c, '\x27'])⟩
      | none => ⟨true, none⟩

/-- `validateSelectField` from `validation.ts`: the argument is
`string | null`. -/
def validateSelectField (value : Option (List Char)) : ValidationResult :=
  match value with
  | none => ⟨false, some "Please select an option"⟩
  | some s =>
    if s = [] ∨ (trimStr s).length = 0 then ⟨false, some "Please select an option"⟩
    else ⟨true, none⟩

/-! ## `sanitization.ts` -/

/-- Helper for the tag-stripping regex replace `.replace(/<[^>]*>/g, '')`:
in tag mode (`true`) characters are dropped up to and including the next
`>`; outside a tag (`false`), a `<` enters tag mode only when a matching
`>` exists further on (otherwise the regex cannot match there, nor anywhere
later in that suffix). -/
def stripTagsAux : Bool → List Char → List Char
  | _, [] => []
  | true, c :: rest =>
    if c = '>' then stripTagsAux false rest else stripTagsAux true rest
  | false, c :: rest =>
    if c = '<' then
      if '>' ∈ rest then stripTagsAux true rest else c :: stripTagsAux false rest
    else c :: stripTagsAux false rest

/-- `.replace(/<[^>]*>/g, '')`: remove every `<...>` tag-shaped substring. -/
def stripTags (s : List Char) : List Char := stripTagsAux false s

/-- `.replace(/pat/g, rep)` for a literal pattern `pat`: replace each
non-overlapping occurrence, scanning left to right.  The fuel argument (one
unit per examined position) keeps the recursion structural; `replaceAll`
supplies enough fuel for the whole string. -/
def replaceAllF (pat rep : List Char) : Nat → List Char → List Char
  | _, [] => []
  | 0, s => s
  | fuel + 1, c :: rest =>
    if (c :: rest).take pat.length = pat then
      rep ++ replaceAllF pat rep fuel ((c :: rest).drop pat.length)
    else c :: replaceAllF pat rep fuel rest

/-- `.replace(/pat/g, rep)` for a literal pattern. -/
def replaceAll (pat rep s : List Char) : List Char :=
  replaceAllF pat rep s.length s

/-- The entity `&lt;`. -/
def ltEnt : List Char := ['&', 'l', 't', ';']
/-- The entity `&gt;`. -/
def gtEnt : List Char := ['&', 'g', 't', ';']
/-- The entity `&quot;`. -/
def quotEnt : List Char := ['&', 'q', 'u', 'o', 't', ';']
/-- The entity `&#x27;`. -/
def aposEnt : List Char := ['&', '#', 'x', '2', '7', ';']
/-- The entity `&amp;`. -/
def ampEnt : List Char := ['&', 'a', 'm', 'p', ';']
/-- The entity `&#x2F;`. -/
def slashEnt : List Char := ['&', '#', 'x', '2', 'F', ';']

/-- The five entity-decoding replaces of `sanitizeInput`, in source order:
`&lt;` then `&gt;` then `&quot;` then `&#x27;` then `&amp;`. -/
def decodeEntities (s : List Char) : List Char :=
  replaceAll ampEnt ['&']
    (replaceAll aposEnt ['\x27']
      (replaceAll quotEnt ['"']
        (replaceAll gtEnt ['>']
          (replaceAll ltEnt ['<'] s))))

/-- `sanitizeInput`: strip tags, then decode the five entities. -/
def sanitizeInput (input : List Char) : List Char :=
  if input = [] then [] else decodeEntities (stripTags input)

/-- `sanitizeEmail`: trim, then lower-case (`toLowerCase` modelled on its
ASCII action). -/
def sanitizeEmail (email : List Char) : List Char :=
  (trimStr email).map Char.toLower

/-- `sanitizePassword`: trim only. -/
def sanitizePassword (password : List Char) : List Char := trimStr password

/-- `sanitizeText`: trim only (with the falsy-input guard). -/
def sanitizeText (text : List Char) : List Char :=
  if text = [] then [] else trimStr text

/-- `sanitizeNumber`: keep only ASCII digits. -/
def sanitizeNumber (input : List Char) : List Char :=
  if input = [] then [] else input.filter isDigitB

/-- `sanitizePhoneNumber`: keep only digits, `+`, `-`, `(`, `)` and the
space character (the class `[^\d+\-() ]` is removed). -/
def sanitizePhoneNumber (phone : List Char) : List Char :=
  if phone = [] then []
  else phone.filter (fun c =>
    isDigitB c || c == '+' || c == '-' || c == '(' || c == ')' || c == ' ')

/-- `sanitizeAlphanumeric`: keep only the class `[a-zA-Z0-9\-\/]`. -/
def sanitizeAlphanumeric (input : List Char) : List Char :=
  if input = [] then []
  else input.filter (fun c => isAsciiLetterB c || isDigitB c || c == '-' || c == '/')

/-- The characters kept by `sanitizeName`: ASCII letters, the fixed
extra-character list exactly as stored in the source file (the committed
file encodes this list as the code points U+CC70, U+CC3C, U+CC55, U+CC60,
U+CC98, U+CCAC, U+CCB4, U+D6AA, U+CC54, U+CC59, U+CC75, U+CCAB, U+CC3D,
U+CC57, U+CC64, U+CC99, U+CCAD, U+CC44, U+CC58, U+CC66, U+CCA0, U+CC4C),
JS whitespace, hyphen and apostrophe. -/
def isSanitizeNameKeep (c : Char) : Bool :=
  let v := c.val.toNat
  isAsciiLetterB c || isJSSpace c || v == 0x2D || v == 0x27 ||
  [0xCC70, 0xCC3C, 0xCC55, 0xCC60, 0xCC98, 0xCCAC, 0xCCB4, 0xD6AA, 0xCC54,
   0xCC59, 0xCC75, 0xCCAB, 0xCC3D, 0xCC57, 0xCC64, 0xCC99, 0xCCAD, 0xCC44,
   0xCC58, 0xCC66, 0xCCA0, 0xCC4C].contains v

/-- Replace each maximal run of characters satisfying `p` by the single
character `r` (the shape of the regex replaces `\s+ → ' '`, `[ \t]+ → ' '`
and `\n\n+ → '\n'`; for the last one a single newline is its own
replacement, so collapsing runs of length one too is the same function). -/
def collapseRuns (p : Char → Bool) (r : Char) : List Char → List Char
  | [] => []
  | c :: rest =>
    if p c then
      match rest with
      | [] => [r]
      | c2 :: _ =>
        if p c2 then collapseRuns p r rest else r :: collapseRuns p r rest
    else c :: collapseRuns p r rest

/-- `sanitizeName`: trim, strip tags, keep only the allowed characters,
collapse whitespace runs (`\s+`) to single spaces. -/
def sanitizeName (name : List Char) : List Char :=
  if name = [] then []
  else collapseRuns isJSSpace ' ' ((stripTags (trimStr name)).filter isSanitizeNameKeep)

/-- The class `[ \t]` (space or tab). -/
def isSpaceTab (c : Char) : Bool := c == ' ' || c == '\t'

/-- `sanitizeTextarea`: trim, strip tags, collapse `\n\n+` to one newline,
collapse `[ \t]+` to one space. -/
def sanitizeTextarea (text : List Char) : List Char :=
  if text = [] then []
  else collapseRuns isSpaceTab ' '
    (collapseRuns (fun c => c == '\n') '\n' (stripTags (trimStr text)))

/-- The per-character encoding map of `encodeHTML`. -/
def encChar (c : Char) : List Char :=
  if c = '&' then ampEnt
  else if c = '<' then ltEnt
  else if c = '>' then gtEnt
  else if c = '"' then quotEnt
  else if c = '\x27' then aposEnt
  else if c = '/' then slashEnt
  else [c]

/-- `encodeHTML`: escape `& < > " ' /` to their entities, one pass. -/
def encodeHTML (text : List Char) : List Char :=
  if text = [] then [] else text.flatMap encChar

/-- `toLowerCase` restricted to its ASCII action, which is exactly what the
case-insensitive (`/i`) ASCII-literal dangerous-pattern regexes depend on. -/
def toLowerAscii (s : List Char) : List Char := s.map Char.toLower

/-- Substring occurrence of a (non-empty) literal pattern, the test
performed by `/pat/.test(input)`. -/
def containsSub (pat : List Char) : List Char → Bool
  | [] => decide (pat = [])
  | c :: rest => decide ((c :: rest).take pat.length = pat) || containsSub pat rest

/-- The regex word class `\w`. -/
def isWordChar (c : Char) : Bool := isAsciiLetterB c || isDigitB c || c == '_'

/-- Whether `on\w+\s*=` matches at the head of the (lower-cased) text. -/
def matchOnAt : List Char → Bool
  | 'o' :: 'n' :: rest =>
    let w := rest.takeWhile isWordChar
    let after := (rest.dropWhile isWordChar).dropWhile isJSSpace
    !w.isEmpty &&
      (match after with
       | '=' :: _ => true
       | _ => false)
  | _ => false

/-- Whether `on\w+\s*=` matches anywhere in the text. -/
def anyOnHandler : List Char → Bool
  | [] => false
  | c :: rest => matchOnAt (c :: rest) || anyOnHandler rest

/-- `containsDangerousPatterns`: the fixed case-insensitive signature list. -/
def containsDangerousPatterns (input : List Char) : Bool :=
  if input = [] then false
  else
    let l := toLowerAscii input
    containsSub "<script".toList l || containsSub "javascript:".toList l ||
    anyOnHandler l || containsSub "<iframe".toList l ||
    containsSub "<object".toList l || containsSub "<embed".toList l ||
    containsSub "eval(".toList l || containsSub "expression(".toList l

/-- `sanitizeAndValidate`: discard the whole input when a dangerous
signature matches, otherwise run `sanitizeInput`. -/
def sanitizeAndValidate (input : List Char) : List Char :=
  if containsDangerousPatterns input then [] else sanitizeInput input

/-- A value of a dynamically-typed form payload (`Record<string, any>`):
a string, `null`, `undefined`, or any other (opaque) value. -/
inductive JSValue where
  | str (s : List Char)
  | null
  | undef
  | other (tag : Nat)
  deriving DecidableEq, Repr

/-- `sanitizeFormData`: iterate the entries in order; string values go
through `sanitizeInput`; `null`/`undefined` values are skipped (the
`value !== null && value !== undefined` guard); everything else is copied
unchanged. -/
def sanitizeFormData (data : List (String × JSValue)) : List (String × JSValue) :=
  data.foldl (fun acc kv =>
    match kv.2 with
    | .str s => acc ++ [(kv.1, .str (sanitizeInput s))]
    | .null => acc
    | .undef => acc
    | .other t => acc ++ [(kv.1, .other t)]) []

/-- `limitLength`: truncate to at most `maxLength` characters. -/
def limitLength (text : List Char) (maxLength : Nat) : List Char :=
  if text = [] then [] else text.take maxLength

/-! JavaScript-level wrappers: the argument may also be `null`/`undefined`
(modelled as `none`).  A sanitizer with the `if (!input) return ''` guard
maps `none` to `''`; `sanitizeEmail` and `sanitizePassword` have no guard
and immediately call a method on the value, so on `none` they throw a
`TypeError`, modelled as the result `none`. -/

/-- JS-level `sanitizeInput` (guarded: falsy input returns `''`). -/
def sanitizeInputOpt : Option (List Char) → Option (List Char)
  | none => some []
  | some s => some (sanitizeInput s)

/-- JS-level `sanitizeEmail` (no guard: `null.trim()` throws). -/
def sanitizeEmailOpt : Option (List Char) → Option (List Char)
  | none => none
  | some s => some (sanitizeEmail s)

/-- JS-level `sanitizePassword` (no guard: `null.trim()` throws). -/
def sanitizePasswordOpt : Option (List Char) → Option (List Char)
  | none => none
  | some s => some (sanitizePassword s)

/-- JS-level `sanitizeText` (guarded). -/
def sanitizeTextOpt : Option (List Char) → Option (List Char)
  | none => some []
  | some s => some (sanitizeText s)

/-- JS-level `sanitizeNumber` (guarded). -/
def sanitizeNumberOpt : Option (List Char) → Option (List Char)
  | none => some []
  | some s => some (sanitizeNumber s)

/-- JS-level `sanitizePhoneNumber` (guarded). -/
def sanitizePhoneNumberOpt : Option (List Char) → Option (List Char)
  | none => some []
  | some s => some (sanitizePhoneNumber s)

/-- JS-level `sanitizeAlphanumeric` (guarded). -/
def sanitizeAlphanumericOpt : Option (List Char) → Option (List Char)
  | none => some []
  | some s => some (sanitizeAlphanumeric s)

/-- JS-level `sanitizeName` (guarded). -/
def sanitizeNameOpt : Option (List Char) → Option (List Char)
  | none => some []
  | some s => some (sanitizeName s)

/-- JS-level `sanitizeTextarea` (guarded). -/
def sanitizeTextareaOpt : Option (List Char) → Option (List Char)
  | none => some []
  | some s => some (sanitizeTextarea s)

/-- JS-level `encodeHTML` (guarded). -/
def encodeHTMLOpt : Option (List Char) → Option (List Char)
  | none => some []
  | some s => some (encodeHTML s)

/-- JS-level `limitLength` (guarded). -/
def limitLengthOpt : Option (List Char) → Nat → Option (List Char)
  | none, _ => some []
  | some s, n => some (limitLength s n)

/-! ## Supporting lemmas -/

/-- A character that fails the predicate survives `dropWhile`. -/
lemma mem_dropWhile_of_neg {c : Char} {p : Char → Bool} :
    ∀ {l : List Char}, c ∈ l → p c = false → c ∈ l.dropWhile p := by
  intro l
  induction l with
  | nil => intro h _; cases h
  | cons a t ih =>
    intro h hp
    by_cases hpa : p a = true
    · have hca : c ≠ a := by
        intro he
        rw [he, hpa] at hp
        cases hp
      have hct : c ∈ t := by
        cases h with
        | head => exact absurd rfl hca
        | tail _ h => exact h
      simpa [List.dropWhile_cons, hpa] using ih hct hp
    · rw [List.dropWhile_cons, if_neg hpa]
      exact h

/-- A non-whitespace character of `s` survives `trimStr s`. -/
lemma mem_trimStr {c : Char} {s : List Char} (hc : isJSSpace c = false)
    (h : c ∈ s) : c ∈ trimStr s := by
  unfold trimStr
  rw [List.mem_reverse]
  exact mem_dropWhile_of_neg (List.mem_reverse.mpr (mem_dropWhile_of_neg h hc)) hc

/-- `detectInvalidCharacter` cannot return `none` when the text contains a
disallowed character. -/
lemma detectInvalidCharacter_ne_none {c : Char} {cats : List String}
    {ind dis : List Char} (hc : c ∈ dis) :
    ∀ {l : List Char}, c ∈ l → detectInvalidCharacter l cats ind dis ≠ none := by
  intro l
  induction l with
  | nil => intro h; cases h
  | cons a t ih =>
    intro hm
    unfold detectInvalidCharacter
    by_cases h1 : a ∈ dis
    · simp [h1]
    · have hmt : c ∈ t := by
        cases hm with
        | head => exact absurd hc h1
        | tail _ h => exact h
      by_cases h2 : a ∈ ind
      · simpa [h1, h2] using ih hmt
      · by_cases h3 : getUnicodeCategory a ∈ cats
        · simpa [h1, h2, h3] using ih hmt
        · simp [h1, h2, h3]

/-- Trimming is idempotent. -/
lemma trimStr_idem (s : List Char) : trimStr (trimStr s) = trimStr s := by
  have hrd : ∀ l : List Char, trimStr l = List.rdropWhile isJSSpace (List.dropWhile isJSSpace l) :=
    fun l => rfl
  have hdw : List.dropWhile isJSSpace (trimStr s) = trimStr s := by
    rw [List.dropWhile_eq_self_iff]
    intro hl
    have hpre : trimStr s <+: List.dropWhile isJSSpace s := by
      rw [hrd]; exact List.rdropWhile_prefix _ _
    have hlen : 0 < (List.dropWhile isJSSpace s).length :=
      lt_of_lt_of_le hl hpre.length_le
    have hget : (trimStr s).get ⟨0, hl⟩ = (List.dropWhile isJSSpace s).get ⟨0, hlen⟩ := by
      simp only [List.get_eq_getElem]
      exact hpre.getElem hl
    rw [hget]
    exact List.dropWhile_get_zero_not _ _ hlen
  rw [hrd (trimStr s), hdw, hrd s, List.rdropWhile_idempotent]

lemma length_trim_ne_zero_iff {s : List Char} :
    (trimStr s).length = 0 ↔ trimStr s = [] := by
  simp [List.length_eq_zero]

/-- `validateEmail` evaluates on the trimmed value: pre-trimming changes nothing. -/
lemma validateEmail_trim (s : List Char) :
    validateEmail (trimStr s) = validateEmail s := by
  simp only [validateEmail, trimStr_idem]
  by_cases h : trimStr s = []
  · simp [h]
  · have hs : s ≠ [] := by rintro rfl; exact h rfl
    simp [h, hs, length_trim_ne_zero_iff]

/-- `validateFullName` evaluates on the trimmed value. -/
lemma validateFullName_trim (s : List Char) :
    validateFullName (trimStr s) = validateFullName s := by
  simp only [validateFullName, trimStr_idem]
  by_cases h : trimStr s = []
  · simp [h]
  · have hs : s ≠ [] := by rintro rfl; exact h rfl
    simp [h, hs, length_trim_ne_zero_iff]

/-- `validatePhone` evaluates on the trimmed value. -/
lemma validatePhone_trim (s : List Char) :
    validatePhone (trimStr s) = validatePhone s := by
  simp only [validatePhone, trimStr_idem]
  by_cases h : trimStr s = []
  · simp [h]
  · have hs : s ≠ [] := by rintro rfl; exact h rfl
    simp [h, hs, length_trim_ne_zero_iff]

/-- `validateAMKA` evaluates on the trimmed value. -/
lemma validateAMKA_trim (s : List Char) :
    validateAMKA (trimStr s) = validateAMKA s := by
  simp only [validateAMKA, trimStr_idem]
  by_cases h : trimStr s = []
  · simp [h]
  · have hs : s ≠ [] := by rintro rfl; exact h rfl
    simp [h, hs, length_trim_ne_zero_iff]

/-- `validateLicenseID` evaluates on the trimmed value. -/
lemma validateLicenseID_trim (s : List Char) :
    validateLicenseID (trimStr s) = validateLicenseID s := by
  simp only [validateLicenseID, trimStr_idem]
  by_cases h : trimStr s = []
  · simp [h]
  · have hs : s ≠ [] := by rintro rfl; exact h rfl
    simp [h, hs, length_trim_ne_zero_iff]

/-- `validateSelectField` evaluates on the trimmed value. -/
lemma validateSelectField_trim (v : Option (List Char)) :
    validateSelectField (v.map trimStr) = validateSelectField v := by
  cases v with
  | none => rfl
  | some s =>
    simp only [Option.map_some', validateSelectField, trimStr_idem]
    by_cases h : trimStr s = []
    · simp [h]
    · have hs : s ≠ [] := by rintro rfl; exact h rfl
      simp [h, hs, length_trim_ne_zero_iff]

/-- `validatePassword` characterized on the raw (untrimmed) input. -/
lemma validatePassword_isValid_iff (p : List Char) (hne : p ≠ []) :
    (validatePassword p).isValid = true ↔
      (8 ≤ p.length ∧ p.length ≤ 128 ∧ p.any isUpperB = true ∧
       p.any isLowerB = true ∧ p.any isDigitB = true ∧
       p.any isPasswordSpecial = true) := by
  simp only [validatePassword, if_neg hne]
  split_ifs with h1 h2 h3
  · exact ⟨fun h => by simp at h, fun ⟨h8, _⟩ => absurd h1 (by omega)⟩
  · exact ⟨fun h => by simp at h, fun ⟨_, h128, _⟩ => absurd h2 (by omega)⟩
  · exact ⟨fun _ => ⟨by omega, by omega, h3.1, h3.2.1, h3.2.2.1, h3.2.2.2⟩, fun _ => rfl⟩
  · exact ⟨fun h => by simp at h, fun ⟨_, _, hu, hl, hd, hs⟩ => absurd ⟨hu, hl, hd, hs⟩ h3⟩



lemma takeWhile_until_at {L D : List Char} (hL : '@' ∉ L) :
    (L ++ '@' :: D).takeWhile (fun c => c != '@') = L := by
  induction L with
  | nil => simp [List.takeWhile_cons]
  | cons a t ih =>
    have ha : a ≠ '@' := fun he => hL (he ▸ List.mem_cons_self a t)
    have ht : '@' ∉ t := fun hm => hL (List.mem_cons_of_mem a hm)
    simp only [List.cons_append, List.takeWhile_cons]
    simp [ha, ih ht]

lemma dropWhile_until_at {L D : List Char} (hL : '@' ∉ L) :
    (L ++ '@' :: D).dropWhile (fun c => c != '@') = '@' :: D := by
  induction L with
  | nil => simp [List.dropWhile_cons]
  | cons a t ih =>
    have ha : a ≠ '@' := fun he => hL (he ▸ List.mem_cons_self a t)
    have ht : '@' ∉ t := fun hm => hL (List.mem_cons_of_mem a hm)
    simp only [List.cons_append, List.dropWhile_cons]
    simp [ha, ih ht]

lemma count_at_one {L D : List Char} (hL : '@' ∉ L) (hD : '@' ∉ D) :
    (L ++ '@' :: D).count '@' = 1 := by
  simp [List.count_append, List.count_cons, List.count_eq_zero_of_not_mem hL,
    List.count_eq_zero_of_not_mem hD]

/-! ## Claims -/

/-- C1: for every validator function (validateEmail, validatePassword,
validateFullName, validatePhone, validateAMKA, validateLicenseID,
validateFreeFormText, validateSelectField) and every input, the returned
ValidationResult has the error field set if and only if isValid is false. -/
theorem validators_error_iff_invalid :
    (∀ e, ((validateEmail e).error.isSome = true ↔ (validateEmail e).isValid = false)) ∧
    (∀ p, ((validatePassword p).error.isSome = true ↔ (validatePassword p).isValid = false)) ∧
    (∀ n, ((validateFullName n).error.isSome = true ↔ (validateFullName n).isValid = false)) ∧
    (∀ p, ((validatePhone p).error.isSome = true ↔ (validatePhone p).isValid = false)) ∧
    (∀ a, ((validateAMKA a).error.isSome = true ↔ (validateAMKA a).isValid = false)) ∧
    (∀ l, ((validateLicenseID l).error.isSome = true ↔ (validateLicenseID l).isValid = false)) ∧
    (∀ nfc text minLength maxLength required fieldName,
      ((validateFreeFormText nfc text minLength maxLength required fieldName).error.isSome = true ↔
        (validateFreeFormText nfc text minLength maxLength required fieldName).isValid = false)) ∧
    (∀ v, ((validateSelectField v).error.isSome = true ↔ (validateSelectField v).isValid = false)) := by
  refine ⟨?_, ?_, ?_, ?_, ?_, ?_, ?_, ?_⟩
  · intro e; simp only [validateEmail]; split_ifs <;> simp
  · intro p; simp only [validatePassword]; split_ifs <;> simp
  · intro n; simp only [validateFullName]; split_ifs <;> simp
  · intro p; simp only [validatePhone]; split_ifs <;> simp
  · intro a; simp only [validateAMKA]; split_ifs <;> simp
  · intro l; simp only [validateLicenseID]; split_ifs <;> simp
  · intro nfc text minLength maxLength required fieldName
    simp only [validateFreeFormText]
    split_ifs <;> (try split) <;> simp
  · intro v
    cases v <;> simp only [validateSelectField] <;>
      first
        | (split_ifs <;> simp)
        | simp

/-- C2: for every string containing the null byte U+0000,
`validateFreeFormText` with its default parameters returns
`isValid = false` (the host NFC normalization is quantified; it keeps the
null byte, which NFC does, since U+0000 takes part in no canonical
composition). -/
theorem validateFreeFormText_rejects_null (nfc : List Char → List Char)
    (text : List Char) (h0 : nullChar ∈ text) (hn : nullChar ∈ nfc text) :
    (validateFreeFormText nfc text 0 1000 false "Text").isValid = false := by
  have hne : text ≠ [] := by rintro rfl; cases h0
  have htr : trimStr text ≠ [] := by
    intro h
    have := mem_trimStr (c := nullChar) (by decide) h0
    rw [h] at this
    cases this
  have hlen : (trimStr text).length ≠ 0 := by
    simpa [List.length_eq_zero] using htr
  unfold validateFreeFormText
  simp only [if_neg (by simp [hne, hlen] : ¬(false = true ∧ (text = [] ∨ (trimStr text).length = 0))),
    if_neg (by simp [hne, hlen] : ¬(text = [] ∨ (trimStr text).length = 0))]
  have hnorm : normalizeText nfc text = nfc text := by
    unfold normalizeText
    rw [if_neg hne]
  split_ifs with hmin hmax
  · rfl
  · rfl
  · have hdet := @detectInvalidCharacter_ne_none nullChar ["L", "N", "Z", "M"]
      freeFormAllowedIndividual [nullChar]
      (by simp) (normalizeText nfc text) (by rw [hnorm]; exact hn)
    cases hcase : detectInvalidCharacter (normalizeText nfc text) ["L", "N", "Z", "M"]
        freeFormAllowedIndividual [nullChar] with
    | none => exact absurd hcase hdet
    | some c => simp [hcase]

/-- Witness for C2 at `nfc = id`, `text = [U+0000]`. -/
theorem validateFreeFormText_rejects_null_witness :
    (validateFreeFormText id [nullChar] 0 1000 false "Text").isValid = false :=
  validateFreeFormText_rejects_null id [nullChar] (by simp) (by simp)

/-- C7: whenever one of the fixed dangerous signatures matches,
`sanitizeAndValidate` returns the empty string. -/
theorem sanitizeAndValidate_dangerous_empty (s : List Char)
    (h : containsDangerousPatterns s = true) : sanitizeAndValidate s = [] := by
  unfold sanitizeAndValidate
  simp [h]

/-- Witness for C7: `sanitizeAndValidate("<script>alert(1)</script>") = ""`. -/
theorem sanitizeAndValidate_dangerous_empty_witness :
    sanitizeAndValidate ("<script>alert(1)</script>".toList) = [] :=
  sanitizeAndValidate_dangerous_empty _ (by decide)

/-- C8: every password of length 8–128 containing at least one uppercase
letter, one lowercase letter, one digit and one fixed-set special character
is accepted by `validatePassword`. -/
theorem validatePassword_accepts_valid (p : List Char)
    (h1 : 8 ≤ p.length) (h2 : p.length ≤ 128)
    (hu : p.any isUpperB = true) (hl : p.any isLowerB = true)
    (hd : p.any isDigitB = true) (hs : p.any isPasswordSpecial = true) :
    (validatePassword p).isValid = true := by
  have hne : p ≠ [] := by
    rintro rfl
    simp at h1
  unfold validatePassword
  rw [if_neg hne, if_neg (by omega), if_neg (by omega),
    if_neg (by simp [hu, hl, hd, hs])]

/-- Witness for C8 at `p = "Aa1!aaaa"`. -/
theorem validatePassword_accepts_valid_witness :
    (validatePassword ("Aa1!aaaa".toList)).isValid = true :=
  validatePassword_accepts_valid _ (by decide) (by decide) (by decide)
    (by decide) (by decide) (by decide)

/-- C10: with `required = false`, empty or whitespace-only input
short-circuits `validateFreeFormText` to valid before the minimum-length
check, for every positive `minLength`. -/
theorem validateFreeFormText_empty_skips_minLength (nfc : List Char → List Char)
    (minLength maxLength : Nat) (fieldName : String) (text : List Char)
    (_hmin : 0 < minLength) (htrim : trimStr text = []) :
    validateFreeFormText nfc text minLength maxLength false fieldName = ⟨true, none⟩ := by
  unfold validateFreeFormText
  simp [htrim]

/-- Witness for C10 at `text = " "`, `minLength = 5`. -/
theorem validateFreeFormText_empty_skips_minLength_witness :
    validateFreeFormText id (" ".toList) 5 1000 false "Text" = ⟨true, none⟩ :=
  validateFreeFormText_empty_skips_minLength id 5 1000 "Text" _ (by decide) (by decide)

theorem validateEmail_localPart_boundary (L D : List Char)
    (hL : '@' ∉ L) (hD : '@' ∉ D) (hDne : D ≠ [])
    (htrim : trimStr (L ++ '@' :: D) = L ++ '@' :: D)
    (hlen : L.length + 1 + D.length ≤ 254) :
    (L.length = 63 →
      (L ++ '@' :: D).any isDangerousEmailChar = false →
      domainRegexTest D = true →
      validateEmail (L ++ '@' :: D) = ⟨true, none⟩) ∧
    (L.length = 64 →
      validateEmail (L ++ '@' :: D) =
        ⟨false, some "Email local part is too long (max 63 characters)"⟩) := by
  have hne : L ++ '@' :: D ≠ [] := by simp
  have hlen0 : (trimStr (L ++ '@' :: D)).length ≠ 0 := by
    rw [htrim]; simp
  have hslen : (L ++ '@' :: D).length = L.length + 1 + D.length := by
    simp [List.length_append]; omega
  constructor
  · intro h63 hdang hdom
    have hLne : L ≠ [] := by
      rintro rfl; simp at h63
    simp only [validateEmail, htrim]
    rw [if_neg (show ¬(L ++ '@' :: D = [] ∨ (L ++ '@' :: D).length = 0) by simp)]
    rw [if_neg (by omega : ¬254 < (L ++ '@' :: D).length)]
    rw [if_neg (show ¬(L ++ '@' :: D).count '@' ≠ 1 by rw [count_at_one hL hD]; omega)]
    rw [takeWhile_until_at hL, dropWhile_until_at hL]
    simp only [List.tail_cons]
    rw [if_neg (by simp [hLne, hDne])]
    rw [if_neg (by omega : ¬63 < L.length)]
    rw [if_neg (by omega : ¬L.length = 0)]
    rw [if_neg (show ¬(L ++ '@' :: D).any isDangerousEmailChar = true by simp [hdang])]
    rw [if_neg (by simp [hdom])]
  · intro h64
    have hLne : L ≠ [] := by
      rintro rfl; simp at h64
    simp only [validateEmail, htrim]
    rw [if_neg (show ¬(L ++ '@' :: D = [] ∨ (L ++ '@' :: D).length = 0) by simp)]
    rw [if_neg (by omega : ¬254 < (L ++ '@' :: D).length)]
    rw [if_neg (show ¬(L ++ '@' :: D).count '@' ≠ 1 by rw [count_at_one hL hD]; omega)]
    rw [takeWhile_until_at hL, dropWhile_until_at hL]
    simp only [List.tail_cons]
    rw [if_neg (by simp [hLne, hDne])]
    rw [if_pos (by omega : 63 < L.length)]

theorem validateEmail_localPart_boundary_witness :
    validateEmail ((List.replicate 63 'a') ++ '@' :: ("example.com".toList)) = ⟨true, none⟩ ∧
    validateEmail ((List.replicate 64 'a') ++ '@' :: ("`".toList)) =
      ⟨false, some "Email local part is too long (max 63 characters)"⟩ :=
  ⟨(validateEmail_localPart_boundary (List.replicate 63 'a') ("example.com".toList)
      (by decide) (by decide) (by decide) (by decide) (by decide)).1
      (by decide) (by decide) (by decide),
   (validateEmail_localPart_boundary (List.replicate 64 'a') ("`".toList)
      (by decide) (by decide) (by decide) (by decide) (by decide)).2
      (by decide)⟩

/-- Counterexample for C4: `" Aa1!xyz"` trims to 7 characters (below the
8-character minimum), yet `validatePassword` accepts it — the length bounds
are not evaluated on the whitespace-trimmed input. -/
theorem validatePassword_not_trimmed_cex :
    (trimStr (' ' :: "Aa1!xyz".toList)).length = 7 ∧
    (validatePassword (' ' :: "Aa1!xyz".toList)).isValid = true := by decide

/-- C4 (amended): validateEmail, validateFullName, validatePhone,
validateAMKA, validateLicenseID and validateSelectField trim leading and
trailing whitespace before evaluating their rules (pre-trimming the input
changes nothing), but validatePassword does not trim: its 8-128 length
bounds and its character-class requirements are evaluated on the raw
value. -/
theorem validators_trim_except_password :
    (∀ s, validateEmail (trimStr s) = validateEmail s) ∧
    (∀ s, validateFullName (trimStr s) = validateFullName s) ∧
    (∀ s, validatePhone (trimStr s) = validatePhone s) ∧
    (∀ s, validateAMKA (trimStr s) = validateAMKA s) ∧
    (∀ s, validateLicenseID (trimStr s) = validateLicenseID s) ∧
    (∀ v, validateSelectField (v.map trimStr) = validateSelectField v) ∧
    (∀ p, p ≠ [] →
      ((validatePassword p).isValid = true ↔
        (8 ≤ p.length ∧ p.length ≤ 128 ∧ p.any isUpperB = true ∧
         p.any isLowerB = true ∧ p.any isDigitB = true ∧
         p.any isPasswordSpecial = true))) :=
  ⟨validateEmail_trim, validateFullName_trim, validatePhone_trim,
   validateAMKA_trim, validateLicenseID_trim, validateSelectField_trim,
   validatePassword_isValid_iff⟩

/-- Witness for C4 at a concrete email and a concrete password. -/
theorem validators_trim_except_password_witness :
    validateEmail (trimStr ("  a@b.co ".toList)) = validateEmail ("  a@b.co ".toList) ∧
    ((validatePassword ("Aa1!xyzw".toList)).isValid = true ↔
      (8 ≤ ("Aa1!xyzw".toList).length ∧ ("Aa1!xyzw".toList).length ≤ 128 ∧
       ("Aa1!xyzw".toList).any isUpperB = true ∧
       ("Aa1!xyzw".toList).any isLowerB = true ∧
       ("Aa1!xyzw".toList).any isDigitB = true ∧
       ("Aa1!xyzw".toList).any isPasswordSpecial = true)) :=
  ⟨validators_trim_except_password.1 _,
   validators_trim_except_password.2.2.2.2.2.2 _ (by decide)⟩

/-- The per-entry value transformation that `sanitizeFormData` applies to
entries it keeps: strings through `sanitizeInput`, anything else unchanged. -/
def sanitizeValue : JSValue → JSValue
  | .str s => .str (sanitizeInput s)
  | v => v

lemma sanitizeFormData_foldl_aux (data : List (String × JSValue)) :
    ∀ acc : List (String × JSValue),
      (∀ kv ∈ data, kv.2 ≠ JSValue.null ∧ kv.2 ≠ JSValue.undef) →
      data.foldl (fun acc kv =>
        match kv.2 with
        | .str s => acc ++ [(kv.1, .str (sanitizeInput s))]
        | .null => acc
        | .undef => acc
        | .other t => acc ++ [(kv.1, .other t)]) acc =
      acc ++ data.map (fun kv => (kv.1, sanitizeValue kv.2)) := by
  induction data with
  | nil => intro acc _; simp
  | cons kv t ih =>
    intro acc h
    have hkv := h kv (List.mem_cons_self kv t)
    have ht : ∀ x ∈ t, x.2 ≠ JSValue.null ∧ x.2 ≠ JSValue.undef :=
      fun x hx => h x (List.mem_cons_of_mem kv hx)
    simp only [List.foldl_cons, List.map_cons]
    cases hv : kv.2 with
    | str s => rw [ih _ ht]; simp [sanitizeValue, hv]
    | null => exact absurd hv hkv.1
    | undef => exact absurd hv hkv.2
    | other tag => rw [ih _ ht]; simp [sanitizeValue, hv]

/-- C5 (amended): on inputs with no null/undefined values, sanitizeFormData
is same-shaped — every key is kept in order, string values go through
sanitizeInput, and other values pass through unchanged.  (Entries whose
value is null or undefined are dropped, so the unrestricted claim fails.) -/
theorem sanitizeFormData_shape (data : List (String × JSValue))
    (h : ∀ kv ∈ data, kv.2 ≠ JSValue.null ∧ kv.2 ≠ JSValue.undef) :
    sanitizeFormData data = data.map (fun kv => (kv.1, sanitizeValue kv.2)) := by
  unfold sanitizeFormData
  simpa using sanitizeFormData_foldl_aux data [] h

/-- Witness for C5 on a two-entry payload. -/
theorem sanitizeFormData_shape_witness :
    sanitizeFormData [("a", JSValue.str ("x".toList)), ("b", JSValue.other 0)] =
      [("a", JSValue.str ("x".toList)), ("b", JSValue.other 0)].map
        (fun kv => (kv.1, sanitizeValue kv.2)) :=
  sanitizeFormData_shape _ (by decide)

/-- Counterexample for C5: an entry whose value is null is dropped, so the
output does not have the same key set as the input. -/
theorem sanitizeFormData_drops_null_cex :
    (sanitizeFormData [("a", JSValue.null)]).map Prod.fst ≠
      ([("a", JSValue.null)] : List (String × JSValue)).map Prod.fst := by decide

/-- Counterexample for C6: `sanitizeEmail` and `sanitizePassword` have no
falsy-input guard and call `.trim()` directly, so on absent (null/undefined)
input they throw a TypeError (modelled as `none`) instead of returning a
defined output. -/
theorem sanitizeEmail_password_throw_cex :
    sanitizeEmailOpt none = none ∧ sanitizePasswordOpt none = none := ⟨rfl, rfl⟩

/-- C6 (amended): every sanitizer is total on string inputs and maps the
empty string to the empty string; the guarded sanitizers (all except
sanitizeEmail and sanitizePassword) also map absent input to the empty
string. -/
theorem sanitizers_total :
    ((∀ s, (sanitizeInputOpt (some s)).isSome = true) ∧
     (∀ s, (sanitizeEmailOpt (some s)).isSome = true) ∧
     (∀ s, (sanitizePasswordOpt (some s)).isSome = true) ∧
     (∀ s, (sanitizeTextOpt (some s)).isSome = true) ∧
     (∀ s, (sanitizeNumberOpt (some s)).isSome = true) ∧
     (∀ s, (sanitizePhoneNumberOpt (some s)).isSome = true) ∧
     (∀ s, (sanitizeAlphanumericOpt (some s)).isSome = true) ∧
     (∀ s, (sanitizeNameOpt (some s)).isSome = true) ∧
     (∀ s, (sanitizeTextareaOpt (some s)).isSome = true) ∧
     (∀ s, (encodeHTMLOpt (some s)).isSome = true) ∧
     (∀ s n, (limitLengthOpt (some s) n).isSome = true)) ∧
    (sanitizeInputOpt (some []) = some [] ∧ sanitizeInputOpt none = some []) ∧
    (sanitizeEmailOpt (some []) = some []) ∧
    (sanitizePasswordOpt (some []) = some []) ∧
    (sanitizeTextOpt (some []) = some [] ∧ sanitizeTextOpt none = some []) ∧
    (sanitizeNumberOpt (some []) = some [] ∧ sanitizeNumberOpt none = some []) ∧
    (sanitizePhoneNumberOpt (some []) = some [] ∧ sanitizePhoneNumberOpt none = some []) ∧
    (sanitizeAlphanumericOpt (some []) = some [] ∧ sanitizeAlphanumericOpt none = some []) ∧
    (sanitizeNameOpt (some []) = some [] ∧ sanitizeNameOpt none = some []) ∧
    (sanitizeTextareaOpt (some []) = some [] ∧ sanitizeTextareaOpt none = some []) ∧
    (encodeHTMLOpt (some []) = some [] ∧ encodeHTMLOpt none = some []) ∧
    (∀ n, limitLengthOpt (some []) n = some [] ∧ limitLengthOpt none n = some []) := by
  refine ⟨⟨?_, ?_, ?_, ?_, ?_, ?_, ?_, ?_, ?_, ?_, ?_⟩, ?_, ?_, ?_, ?_, ?_, ?_, ?_, ?_, ?_, ?_, ?_⟩ <;>
    first
      | exact fun _ => rfl
      | exact fun _ _ => rfl
      | exact ⟨rfl, rfl⟩
      | exact rfl
      | exact fun _ => ⟨rfl, rfl⟩

lemma replaceAllF_fuel_eq (pat rep : List Char) (hp : pat ≠ []) :
    ∀ (n m : Nat) (s : List Char), s.length ≤ n → s.length ≤ m →
      replaceAllF pat rep n s = replaceAllF pat rep m s := by
  intro n
  induction n with
  | zero =>
    intro m s hn _
    have hs : s = [] := List.length_eq_zero.mp (Nat.le_zero.mp hn)
    subst hs
    cases m <;> rfl
  | succ n ih =>
    intro m s hn hm
    cases s with
    | nil => cases m <;> rfl
    | cons c t =>
      have hpl : 1 ≤ pat.length := List.length_pos.mpr hp
      have hm1 : ∃ m', m = m' + 1 := ⟨m - 1, by simp at hm; omega⟩
      obtain ⟨m', rfl⟩ := hm1
      rw [show replaceAllF pat rep (n + 1) (c :: t) =
        (if (c :: t).take pat.length = pat then
          rep ++ replaceAllF pat rep n ((c :: t).drop pat.length)
        else c :: replaceAllF pat rep n t) from rfl]
      rw [show replaceAllF pat rep (m' + 1) (c :: t) =
        (if (c :: t).take pat.length = pat then
          rep ++ replaceAllF pat rep m' ((c :: t).drop pat.length)
        else c :: replaceAllF pat rep m' t) from rfl]
      have hlen : (c :: t).length = t.length + 1 := rfl
      simp only [hlen] at hn hm
      split_ifs with h
      · have hd : ((c :: t).drop pat.length).length ≤ t.length := by
          simp [List.length_drop]
          omega
        congr 1
        exact ih m' _ (le_trans hd (by omega)) (le_trans hd (by omega))
      · congr 1
        exact ih m' t (by omega) (by omega)

lemma RA_cons (pat rep : List Char) (c : Char) (t : List Char) (hp : pat ≠ []) :
    replaceAll pat rep (c :: t) =
      if (c :: t).take pat.length = pat then
        rep ++ replaceAll pat rep ((c :: t).drop pat.length)
      else c :: replaceAll pat rep t := by
  have hpl : 1 ≤ pat.length := List.length_pos.mpr hp
  show replaceAllF pat rep (c :: t).length (c :: t) = _
  rw [show replaceAllF pat rep (c :: t).length (c :: t) =
    (if (c :: t).take pat.length = pat then
      rep ++ replaceAllF pat rep t.length ((c :: t).drop pat.length)
    else c :: replaceAllF pat rep t.length t) from rfl]
  split_ifs with h
  · congr 1
    apply replaceAllF_fuel_eq pat rep hp
    · simp [List.length_drop]; omega
    · exact le_refl _
  · rfl

lemma RA_skip (pat rep : List Char) (c : Char) (t : List Char) (hp : pat ≠ [])
    (h : (c :: t).take pat.length ≠ pat) :
    replaceAll pat rep (c :: t) = c :: replaceAll pat rep t := by
  rw [RA_cons pat rep c t hp, if_neg h]

lemma RA_skip_of_ne_head (pat rep : List Char) (c : Char) (t : List Char)
    (hp : pat ≠ []) (h : pat.head? ≠ some c) :
    replaceAll pat rep (c :: t) = c :: replaceAll pat rep t := by
  cases pat with
  | nil => exact absurd rfl hp
  | cons p pr =>
    apply RA_skip _ _ _ _ hp
    intro hc
    rw [show (c :: t).take (p :: pr).length = c :: t.take pr.length from rfl] at hc
    injection hc with h1 _
    exact h (by rw [List.head?_cons, h1])

lemma RA_match (pat rep t : List Char) (hp : pat ≠ []) :
    replaceAll pat rep (pat ++ t) = rep ++ replaceAll pat rep t := by
  cases pat with
  | nil => exact absurd rfl hp
  | cons p pr =>
    rw [show (p :: pr) ++ t = p :: (pr ++ t) from rfl]
    rw [RA_cons _ _ _ _ hp]
    rw [if_pos (by
      rw [show p :: (pr ++ t) = (p :: pr) ++ t from rfl]
      exact List.take_left _ _)]
    congr 1
    rw [show p :: (pr ++ t) = (p :: pr) ++ t from rfl, List.drop_left]

lemma RA_skip_chars (pat rep : List Char) (hp : pat ≠ []) :
    ∀ (u : List Char), (∀ x ∈ u, pat.head? ≠ some x) → ∀ t,
      replaceAll pat rep (u ++ t) = u ++ replaceAll pat rep t := by
  intro u
  induction u with
  | nil => intro _ t; rfl
  | cons x v ih =>
    intro h t
    rw [show (x :: v) ++ t = x :: (v ++ t) from rfl]
    rw [RA_skip_of_ne_head _ _ _ _ hp (h x (List.mem_cons_self x v))]
    rw [ih (fun y hy => h y (List.mem_cons_of_mem x hy)) t]
    rfl

lemma RA_amp_token (pat rep : List Char) (u : List Char) (hp : pat ≠ [])
    (hu : ∀ x ∈ u, pat.head? ≠ some x)
    (hmis : ∀ t, ¬ ('&' :: (u ++ t)).take pat.length = pat) (t : List Char) :
    replaceAll pat rep (('&' :: u) ++ t) = ('&' :: u) ++ replaceAll pat rep t := by
  rw [show ('&' :: u) ++ t = '&' :: (u ++ t) from rfl]
  rw [RA_skip _ _ _ _ hp (hmis t)]
  rw [RA_skip_chars pat rep hp u hu t]
  rfl

lemma RA_flatMap (pat rep : List Char) (f g : Char → List Char) (P : Char → Bool)
    (hstep : ∀ c, P c = true → ∀ t, replaceAll pat rep (f c ++ t) = g c ++ replaceAll pat rep t) :
    ∀ s : List Char, (∀ c ∈ s, P c = true) →
      replaceAll pat rep (s.flatMap f) = s.flatMap g := by
  intro s
  induction s with
  | nil => intro _; rfl
  | cons c t ih =>
    intro h
    rw [List.flatMap_cons, List.flatMap_cons]
    rw [hstep c (h c (List.mem_cons_self c t)) (t.flatMap f)]
    rw [ih (fun x hx => h x (List.mem_cons_of_mem c hx))]


def roundTripChar (c : Char) : Bool :=
  isAsciiLetterB c || c == '&' || c == '<' || c == '>' || c == '"' || c == '\x27'

def encStage1 (c : Char) : List Char := if c = '<' then ['<'] else encChar c

def encStage2 (c : Char) : List Char := if c = '>' then ['>'] else encStage1 c

def encStage3 (c : Char) : List Char := if c = '"' then ['"'] else encStage2 c

def encStage4 (c : Char) : List Char := if c = '\x27' then ['\x27'] else encStage3 c

def encStage5 (c : Char) : List Char := if c = '&' then ['&'] else encStage4 c

lemma letter_not_special {c : Char} (h : isAsciiLetterB c = true) :
    c ≠ '&' ∧ c ≠ '<' ∧ c ≠ '>' ∧ c ≠ '"' ∧ c ≠ '\x27' ∧ c ≠ '/' := by
  refine ⟨?_, ?_, ?_, ?_, ?_, ?_⟩ <;> (rintro rfl; revert h; decide)

lemma roundTrip_letter {c : Char} (hc : roundTripChar c = true)
    (h1 : c ≠ '&') (h2 : c ≠ '<') (h3 : c ≠ '>') (h4 : c ≠ '"') (h5 : c ≠ '\x27') :
    isAsciiLetterB c = true := by
  simp only [roundTripChar, Bool.or_eq_true, beq_iff_eq] at hc
  rcases hc with ((((h | h) | h) | h) | h) | h
  exacts [h, absurd h h1, absurd h h2, absurd h h3, absurd h h4, absurd h h5]

lemma encChar_letter {c : Char} (h : isAsciiLetterB c = true) : encChar c = [c] := by
  obtain ⟨h1, h2, h3, h4, h5, h6⟩ := letter_not_special h
  simp [encChar, h1, h2, h3, h4, h5, h6]

lemma stage1_step : ∀ c, roundTripChar c = true → ∀ t,
    replaceAll ltEnt ['<'] (encChar c ++ t) = encStage1 c ++ replaceAll ltEnt ['<'] t := by
  intro c hc t
  by_cases h2 : c = '<'
  · subst h2
    rw [show encChar '<' = ltEnt from rfl, show encStage1 '<' = ['<'] from rfl]
    exact RA_match _ _ _ (by decide)
  · by_cases h1 : c = '&'
    · subst h1
      rw [show encChar '&' = ampEnt from rfl, show encStage1 '&' = ampEnt from rfl]
      exact RA_amp_token ltEnt ['<'] ['a', 'm', 'p', ';'] (by decide) (by decide)
        (fun t => by
          rw [show List.take ltEnt.length ('&' :: (['a', 'm', 'p', ';'] ++ t)) =
            ['&', 'a', 'm', 'p'] from rfl]
          decide) t
    · by_cases h3 : c = '>'
      · subst h3
        rw [show encChar '>' = gtEnt from rfl, show encStage1 '>' = gtEnt from rfl]
        exact RA_amp_token ltEnt ['<'] ['g', 't', ';'] (by decide) (by decide)
          (fun t => by
            rw [show List.take ltEnt.length ('&' :: (['g', 't', ';'] ++ t)) =
              ['&', 'g', 't', ';'] from rfl]
            decide) t
      · by_cases h4 : c = '"'
        · subst h4
          rw [show encChar '"' = quotEnt from rfl, show encStage1 '"' = quotEnt from rfl]
          exact RA_amp_token ltEnt ['<'] ['q', 'u', 'o', 't', ';'] (by decide) (by decide)
            (fun t => by
              rw [show List.take ltEnt.length ('&' :: (['q', 'u', 'o', 't', ';'] ++ t)) =
                ['&', 'q', 'u', 'o'] from rfl]
              decide) t
        · by_cases h5 : c = '\x27'
          · subst h5
            rw [show encChar '\x27' = aposEnt from rfl, show encStage1 '\x27' = aposEnt from rfl]
            exact RA_amp_token ltEnt ['<'] ['#', 'x', '2', '7', ';'] (by decide) (by decide)
              (fun t => by
                rw [show List.take ltEnt.length ('&' :: (['#', 'x', '2', '7', ';'] ++ t)) =
                  ['&', '#', 'x', '2'] from rfl]
                decide) t
          · have hl := roundTrip_letter hc h1 h2 h3 h4 h5
            rw [encChar_letter hl, show encStage1 c = encChar c from if_neg h2,
              encChar_letter hl]
            exact RA_skip_of_ne_head _ _ _ _ (by decide)
              (by rw [show ltEnt.head? = some '&' from rfl]
                  exact fun hh => h1 (Option.some.inj hh).symm)


lemma single_step (pat rep : List Char) (hp : pat ≠ []) (hh : pat.head? = some '&')
    (c : Char) (hc : c ≠ '&') (t : List Char) :
    replaceAll pat rep ([c] ++ t) = [c] ++ replaceAll pat rep t :=
  RA_skip_of_ne_head _ _ _ _ hp
    (by rw [hh]; exact fun hq => hc (Option.some.inj hq).symm)

lemma stage2_step : ∀ c, roundTripChar c = true → ∀ t,
    replaceAll gtEnt ['>'] (encStage1 c ++ t) = encStage2 c ++ replaceAll gtEnt ['>'] t := by
  intro c hc t
  by_cases h3 : c = '>'
  · subst h3
    rw [show encStage1 '>' = gtEnt from rfl, show encStage2 '>' = ['>'] from rfl]
    exact RA_match _ _ _ (by decide)
  · by_cases h2 : c = '<'
    · subst h2
      rw [show encStage1 '<' = ['<'] from rfl, show encStage2 '<' = ['<'] from rfl]
      exact single_step _ _ (by decide) (by rfl) _ (by decide) t
    · by_cases h1 : c = '&'
      · subst h1
        rw [show encStage1 '&' = ampEnt from rfl, show encStage2 '&' = ampEnt from rfl]
        exact RA_amp_token gtEnt ['>'] ['a', 'm', 'p', ';'] (by decide) (by decide)
          (fun t => by
            rw [show List.take gtEnt.length ('&' :: (['a', 'm', 'p', ';'] ++ t)) =
              ['&', 'a', 'm', 'p'] from rfl]
            decide) t
      · by_cases h4 : c = '"'
        · subst h4
          rw [show encStage1 '"' = quotEnt from rfl, show encStage2 '"' = quotEnt from rfl]
          exact RA_amp_token gtEnt ['>'] ['q', 'u', 'o', 't', ';'] (by decide) (by decide)
            (fun t => by
              rw [show List.take gtEnt.length ('&' :: (['q', 'u', 'o', 't', ';'] ++ t)) =
                ['&', 'q', 'u', 'o'] from rfl]
              decide) t
        · by_cases h5 : c = '\x27'
          · subst h5
            rw [show encStage1 '\x27' = aposEnt from rfl,
              show encStage2 '\x27' = aposEnt from rfl]
            exact RA_amp_token gtEnt ['>'] ['#', 'x', '2', '7', ';'] (by decide) (by decide)
              (fun t => by
                rw [show List.take gtEnt.length ('&' :: (['#', 'x', '2', '7', ';'] ++ t)) =
                  ['&', '#', 'x', '2'] from rfl]
                decide) t
          · have hl := roundTrip_letter hc h1 h2 h3 h4 h5
            rw [show encStage1 c = encChar c from if_neg h2, encChar_letter hl,
              show encStage2 c = encStage1 c from if_neg h3,
              show encStage1 c = encChar c from if_neg h2, encChar_letter hl]
            exact single_step _ _ (by decide) (by rfl) _ h1 t

lemma stage3_step : ∀ c, roundTripChar c = true → ∀ t,
    replaceAll quotEnt ['"'] (encStage2 c ++ t) = encStage3 c ++ replaceAll quotEnt ['"'] t := by
  intro c hc t
  by_cases h4 : c = '"'
  · subst h4
    rw [show encStage2 '"' = quotEnt from rfl, show encStage3 '"' = ['"'] from rfl]
    exact RA_match _ _ _ (by decide)
  · by_cases h2 : c = '<'
    · subst h2
      rw [show encStage2 '<' = ['<'] from rfl, show encStage3 '<' = ['<'] from rfl]
      exact single_step _ _ (by decide) (by rfl) _ (by decide) t
    · by_cases h3 : c = '>'
      · subst h3
        rw [show encStage2 '>' = ['>'] from rfl, show encStage3 '>' = ['>'] from rfl]
        exact single_step _ _ (by decide) (by rfl) _ (by decide) t
      · by_cases h1 : c = '&'
        · subst h1
          rw [show encStage2 '&' = ampEnt from rfl, show encStage3 '&' = ampEnt from rfl]
          exact RA_amp_token quotEnt ['"'] ['a', 'm', 'p', ';'] (by decide) (by decide)
            (fun t => by
              rw [show List.take quotEnt.length ('&' :: (['a', 'm', 'p', ';'] ++ t)) =
                '&' :: 'a' :: 'm' :: 'p' :: ';' :: List.take 1 t from rfl]
              intro hq
              injection hq with _ hq2
              injection hq2 with hq3 _
              exact absurd hq3 (by decide)) t
        · by_cases h5 : c = '\x27'
          · subst h5
            rw [show encStage2 '\x27' = aposEnt from rfl,
              show encStage3 '\x27' = aposEnt from rfl]
            exact RA_amp_token quotEnt ['"'] ['#', 'x', '2', '7', ';'] (by decide) (by decide)
              (fun t => by
                rw [show List.take quotEnt.length ('&' :: (['#', 'x', '2', '7', ';'] ++ t)) =
                  ['&', '#', 'x', '2', '7', ';'] from rfl]
                decide) t
          · have hl := roundTrip_letter hc h1 h2 h3 h4 h5
            rw [show encStage2 c = encStage1 c from if_neg h3,
              show encStage1 c = encChar c from if_neg h2, encChar_letter hl,
              show encStage3 c = encStage2 c from if_neg h4,
              show encStage2 c = encStage1 c from if_neg h3,
              show encStage1 c = encChar c from if_neg h2, encChar_letter hl]
            exact single_step _ _ (by decide) (by rfl) _ h1 t

lemma stage4_step : ∀ c, roundTripChar c = true → ∀ t,
    replaceAll aposEnt ['\x27'] (encStage3 c ++ t) =
      encStage4 c ++ replaceAll aposEnt ['\x27'] t := by
  intro c hc t
  by_cases h5 : c = '\x27'
  · subst h5
    rw [show encStage3 '\x27' = aposEnt from rfl, show encStage4 '\x27' = ['\x27'] from rfl]
    exact RA_match _ _ _ (by decide)
  · by_cases h2 : c = '<'
    · subst h2
      rw [show encStage3 '<' = ['<'] from rfl, show encStage4 '<' = ['<'] from rfl]
      exact single_step _ _ (by decide) (by rfl) _ (by decide) t
    · by_cases h3 : c = '>'
      · subst h3
        rw [show encStage3 '>' = ['>'] from rfl, show encStage4 '>' = ['>'] from rfl]
        exact single_step _ _ (by decide) (by rfl) _ (by decide) t
      · by_cases h4 : c = '"'
        · subst h4
          rw [show encStage3 '"' = ['"'] from rfl, show encStage4 '"' = ['"'] from rfl]
          exact single_step _ _ (by decide) (by rfl) _ (by decide) t
        · by_cases h1 : c = '&'
          · subst h1
            rw [show encStage3 '&' = ampEnt from rfl, show encStage4 '&' = ampEnt from rfl]
            exact RA_amp_token aposEnt ['\x27'] ['a', 'm', 'p', ';'] (by decide) (by decide)
              (fun t => by
                rw [show List.take aposEnt.length ('&' :: (['a', 'm', 'p', ';'] ++ t)) =
                  '&' :: 'a' :: 'm' :: 'p' :: ';' :: List.take 1 t from rfl]
                intro hq
                injection hq with _ hq2
                injection hq2 with hq3 _
                exact absurd hq3 (by decide)) t
          · have hl := roundTrip_letter hc h1 h2 h3 h4 h5
            rw [show encStage3 c = encStage2 c from if_neg h4,
              show encStage2 c = encStage1 c from if_neg h3,
              show encStage1 c = encChar c from if_neg h2, encChar_letter hl,
              show encStage4 c = encStage3 c from if_neg h5,
              show encStage3 c = encStage2 c from if_neg h4,
              show encStage2 c = encStage1 c from if_neg h3,
              show encStage1 c = encChar c from if_neg h2, encChar_letter hl]
            exact single_step _ _ (by decide) (by rfl) _ h1 t

lemma stage5_step : ∀ c, roundTripChar c = true → ∀ t,
    replaceAll ampEnt ['&'] (encStage4 c ++ t) = encStage5 c ++ replaceAll ampEnt ['&'] t := by
  intro c hc t
  by_cases h1 : c = '&'
  · subst h1
    rw [show encStage4 '&' = ampEnt from rfl, show encStage5 '&' = ['&'] from rfl]
    exact RA_match _ _ _ (by decide)
  · by_cases h2 : c = '<'
    · subst h2
      rw [show encStage4 '<' = ['<'] from rfl, show encStage5 '<' = ['<'] from rfl]
      exact single_step _ _ (by decide) (by rfl) _ (by decide) t
    · by_cases h3 : c = '>'
      · subst h3
        rw [show encStage4 '>' = ['>'] from rfl, show encStage5 '>' = ['>'] from rfl]
        exact single_step _ _ (by decide) (by rfl) _ (by decide) t
      · by_cases h4 : c = '"'
        · subst h4
          rw [show encStage4 '"' = ['"'] from rfl, show encStage5 '"' = ['"'] from rfl]
          exact single_step _ _ (by decide) (by rfl) _ (by decide) t
        · by_cases h5 : c = '\x27'
          · subst h5
            rw [show encStage4 '\x27' = ['\x27'] from rfl,
              show encStage5 '\x27' = ['\x27'] from rfl]
            exact single_step _ _ (by decide) (by rfl) _ (by decide) t
          · have hl := roundTrip_letter hc h1 h2 h3 h4 h5
            rw [show encStage4 c = encStage3 c from if_neg h5,
              show encStage3 c = encStage2 c from if_neg h4,
              show encStage2 c = encStage1 c from if_neg h3,
              show encStage1 c = encChar c from if_neg h2, encChar_letter hl,
              show encStage5 c = encStage4 c from if_neg h1,
              show encStage4 c = encStage3 c from if_neg h5,
              show encStage3 c = encStage2 c from if_neg h4,
              show encStage2 c = encStage1 c from if_neg h3,
              show encStage1 c = encChar c from if_neg h2, encChar_letter hl]
            exact single_step _ _ (by decide) (by rfl) _ h1 t

lemma encStage5_eq_single {c : Char} (hc : roundTripChar c = true) : encStage5 c = [c] := by
  by_cases h1 : c = '&'
  · subst h1; rfl
  · by_cases h2 : c = '<'
    · subst h2; rfl
    · by_cases h3 : c = '>'
      · subst h3; rfl
      · by_cases h4 : c = '"'
        · subst h4; rfl
        · by_cases h5 : c = '\x27'
          · subst h5; rfl
          · have hl := roundTrip_letter hc h1 h2 h3 h4 h5
            rw [show encStage5 c = encStage4 c from if_neg h1,
              show encStage4 c = encStage3 c from if_neg h5,
              show encStage3 c = encStage2 c from if_neg h4,
              show encStage2 c = encStage1 c from if_neg h3,
              show encStage1 c = encChar c from if_neg h2, encChar_letter hl]

lemma flatMap_encStage5 (s : List Char) (h : ∀ c ∈ s, roundTripChar c = true) :
    s.flatMap encStage5 = s := by
  induction s with
  | nil => rfl
  | cons c t ih =>
    rw [List.flatMap_cons, encStage5_eq_single (h c (List.mem_cons_self c t)),
      ih (fun x hx => h x (List.mem_cons_of_mem c hx))]
    rfl


/-- The alphabet named by the claim: the six encoded characters and
ordinary letters. -/
def claimAlphabetChar (c : Char) : Bool := roundTripChar c || c == '/'

/-- C3 (amended): for inputs over letters and `& < > " '` (slash excluded),
encoding with `encodeHTML` and then decoding the five entities in the order
`sanitizeInput` decodes them reconstructs the input exactly. -/
theorem encodeHTML_decode_roundTrip (s : List Char)
    (hs : ∀ c ∈ s, roundTripChar c = true) :
    decodeEntities (encodeHTML s) = s := by
  by_cases hnil : s = []
  · subst hnil; rfl
  · unfold encodeHTML decodeEntities
    rw [if_neg hnil]
    rw [RA_flatMap ltEnt ['<'] encChar encStage1 roundTripChar stage1_step s hs,
      RA_flatMap gtEnt ['>'] encStage1 encStage2 roundTripChar stage2_step s hs,
      RA_flatMap quotEnt ['"'] encStage2 encStage3 roundTripChar stage3_step s hs,
      RA_flatMap aposEnt ['\x27'] encStage3 encStage4 roundTripChar stage4_step s hs,
      RA_flatMap ampEnt ['&'] encStage4 encStage5 roundTripChar stage5_step s hs]
    exact flatMap_encStage5 s hs

/-- Witness for C3 on a string using every decoded character class. -/
theorem encodeHTML_decode_roundTrip_witness :
    decodeEntities (encodeHTML ("a&b<c>d\"e".toList ++ ['\x27'])) =
      "a&b<c>d\"e".toList ++ ['\x27'] :=
  encodeHTML_decode_roundTrip _ (by decide)

/-- Counterexample for C3: `/` is in the claim's alphabet, but `encodeHTML`
turns it into `&#x2F;`, which none of the five decoded entities restores. -/
theorem encodeHTML_slash_no_roundTrip_cex :
    claimAlphabetChar '/' = true ∧ decodeEntities (encodeHTML ['/']) ≠ ['/'] := by
  decide

end SecurityWeb
